import Mathlib

/-!
# Verification of the ValidAI validation-copilot core

Shallow embedding of the project state machine, the execution simulator,
the Gateway retry helper, the spreadsheet importer and the report-view fix
flow of the repository, together with theorems settling the frozen claims.

Sources embedded:
* `src/types.ts`                      — data model
* `src/unnamed/part_001`              — `ExecutionRunner.runTests`
* `src/unnamed/part_000`              — Gateway `retry` helper, the five
  Gateway operations, and `parseExcelRequirements`
* `src/components/Layout.tsx`         — `TestPlanView` `addStep`/`removeStep`
* `src/components/ReportView.tsx`     — `addStep`/`removeStep`/`handleSaveAndRetry`
* `src/App.tsx`                       — `handleRequirementsGathered`
-/

/-! ## Data model (src/types.ts) -/

/-- `AppView` enum from src/types.ts. -/
inductive AppView
  | DASHBOARD
  | GATHER_REQUIREMENTS
  | REVIEW_PLAN
  | EXECUTION
  | REPORT
  | HISTORY
deriving DecidableEq, Repr

/-- `RequirementType` enum from src/types.ts. -/
inductive RequirementType
  | USER
  | FUNCTIONAL
  | TECHNICAL
deriving DecidableEq, Repr

/-- The `'High' | 'Medium' | 'Low'` priority union from src/types.ts. -/
inductive Priority
  | High
  | Medium
  | Low
deriving DecidableEq, Repr

/-- `Requirement` record from src/types.ts (the `type` field is named
`reqType` since `type` is reserved in Lean). -/
structure Requirement where
  id : String
  reqType : RequirementType
  description : String
  priority : Priority
deriving DecidableEq, Repr

/-- `TestStep` record from src/types.ts. -/
structure TestStep where
  stepNumber : Nat
  action : String
  expectedResult : String
deriving DecidableEq, Repr

/-- The `'PENDING' | 'RUNNING' | 'PASSED' | 'FAILED'` status union of a
`TestCase` in src/types.ts. -/
inductive TCStatus
  | PENDING
  | RUNNING
  | PASSED
  | FAILED
deriving DecidableEq, Repr

/-- `TestCase` record from src/types.ts; the optional TS fields
(`screenshotUrl?`, `failedStepNumber?`, `failureReason?`) become `Option`. -/
structure TestCase where
  id : String
  requirementId : String
  title : String
  steps : List TestStep
  status : TCStatus
  logs : List String
  screenshotUrl : Option String
  failedStepNumber : Option Nat
  failureReason : Option String
deriving DecidableEq, Repr

/-- The `'Draft' | 'In Progress' | 'Validated' | 'Partly Validated' | 'Failed'`
aggregate status union of a `ValidationProject` in src/types.ts. -/
inductive ProjStatus
  | Draft
  | InProgress
  | Validated
  | PartlyValidated
  | Failed
deriving DecidableEq, Repr

/-- `ChatMessage` record from src/types.ts; `role` is `true` for `'user'`
and `false` for `'model'`. -/
structure ChatMessage where
  role : Bool
  text : String
  timestamp : Nat
deriving DecidableEq, Repr

/-- `ValidationProject` record from src/types.ts. -/
structure ValidationProject where
  id : String
  name : String
  platformVersion : String
  status : ProjStatus
  createdAt : String
  requirements : List Requirement
  testCases : List TestCase
  chatHistory : List ChatMessage
  environmentConfig : Option String
deriving DecidableEq, Repr

/-! ## Execution simulator (`runTests` in src/unnamed/part_001) -/

/-- The four `Math.random()` draw sites a single processed test case can hit in
`runTests` (src/unnamed/part_001, lines 106, 107, 122, 132), plus the tail of
the wall-clock-timestamped UI console that `runTests` copies into the case's
logs via `consoleLogs.slice(-5)` (line 140); the timestamps make that tail an
environment input rather than a computable value, so it is part of the oracle. -/
structure Draws where
  rSuccess : ℚ
  rFailStep : ℚ
  rReason : ℚ
  rShot : ℚ
  consoleTail : List String
deriving DecidableEq, Repr

/-- Each `Math.random()` result lies in the half-open unit interval. -/
def ValidDraws (d : Draws) : Prop :=
  0 ≤ d.rSuccess ∧ d.rSuccess < 1 ∧
  0 ≤ d.rFailStep ∧ d.rFailStep < 1 ∧
  0 ≤ d.rReason ∧ d.rReason < 1 ∧
  0 ≤ d.rShot ∧ d.rShot < 1

instance (d : Draws) : Decidable (ValidDraws d) := by
  unfold ValidDraws; infer_instance

/-- The fixed failure-reason pool of `runTests` (src/unnamed/part_001,
lines 115-121); `\x27` is an ASCII apostrophe. -/
def reasons : List String :=
  [ "Element not found within timeout",
    "Expected text \x27Submit\x27 but found \x27Save\x27",
    "API returned 500 Internal Server Error",
    "Button is not clickable",
    "Input validation failed unexpectedly" ]

/-- Models `generateScreenshot` (src/unnamed/part_001, lines 22-64): the
canvas-drawn placeholder evidence image, abstracted to a data URL determined by
the drawn inputs (the pixel content is presentation and out of scope). -/
def generateScreenshot (status : TCStatus) (testName : String)
    (failedStep : Option Nat) (reason : Option String) : String :=
  "data:image/png;base64," ++ testName ++ toString (repr status)
    ++ toString failedStep ++ toString reason

/-- The inner `for (const step of tc.steps)` loop of `runTests`
(src/unnamed/part_001, lines 109-126) in the failing case: steps are walked in
order and the loop `break`s at the first step whose `stepNumber` equals the
drawn `failAtStep`, recording that step's number; if no step matches, the loop
ends with `failedStepNumber` still `undefined`. -/
def firstMatch (steps : List TestStep) (failAt : Nat) : Option Nat :=
  match steps with
  | [] => none
  | s :: rest => if s.stepNumber = failAt then some s.stepNumber else firstMatch rest failAt

/-- One iteration of the `runTests` loop body for a non-`PASSED` case
(src/unnamed/part_001, lines 94-144):
`isSuccess = Math.random() > 0.3`; on failure
`failAtStep = Math.floor(Math.random() * tc.steps.length) + 1`; the step walk
records `failedStepNumber` and draws `failureReason` from `reasons` via
`reasons[Math.floor(Math.random() * reasons.length)]` (out-of-range JS indexing
yields `undefined`, hence `List.get?`); final status is `PASSED`/`FAILED`; a
screenshot is generated `if (!isSuccess || Math.random() > 0.8)`; the stored
logs are the result line followed by the last console lines. -/
def processCase (tc : TestCase) (d : Draws) : TestCase :=
  let isSuccess : Bool := d.rSuccess > 0.3
  let failAtStep : Nat :=
    if !isSuccess then (Int.floor (d.rFailStep * tc.steps.length)).toNat + 1 else 0
  let failedStepNumber : Option Nat :=
    if !isSuccess then firstMatch tc.steps failAtStep else none
  let failureReason : Option String :=
    match failedStepNumber with
    | some _ => reasons.get? (Int.floor (d.rReason * reasons.length)).toNat
    | none => none
  let status : TCStatus := if isSuccess then .PASSED else .FAILED
  let screenshotUrl : Option String :=
    if !isSuccess || d.rShot > 0.8 then
      some (generateScreenshot status tc.title failedStepNumber failureReason)
    else none
  let resultLine : String :=
    if isSuccess then "Result: Success"
    else "Result: Failed at Step " ++
      (match failedStepNumber with | some n => toString n | none => "undefined")
  { tc with
      status := status,
      logs := resultLine :: d.consoleTail,
      screenshotUrl := screenshotUrl,
      failedStepNumber := failedStepNumber,
      failureReason := failureReason }

/-- The main loop of `runTests` (src/unnamed/part_001, lines 88-150): cases are
visited in list order, already-`PASSED` cases are skipped via `continue`
(line 92), every other case is replaced by its processed version; case `i`
consumes the draws `oracle i`. -/
def runPass (oracle : Nat → Draws) : List TestCase → Nat → List TestCase
  | [], _ => []
  | tc :: rest, i =>
    (if tc.status = .PASSED then tc else processCase tc (oracle i)) ::
      runPass oracle rest (i + 1)

/-- `pendingCount` of `runTests` (src/unnamed/part_001, line 79). -/
def pendingCount (cases : List TestCase) : Nat :=
  (cases.filter fun tc => tc.status == .PENDING).length

/-- `failedCount` of the final aggregation in `runTests`
(src/unnamed/part_001, line 159). -/
def failedCount (cases : List TestCase) : Nat :=
  (cases.filter fun tc => tc.status == .FAILED).length

/-- The aggregation at the end of `runTests` (src/unnamed/part_001,
lines 159-169).  The source compares `failedCount > totalCount / 2` with exact
JS `/` division; over the integers `failedCount > totalCount / 2` holds exactly
when `2 * failedCount > totalCount`. -/
def finalStatus (cases : List TestCase) : ProjStatus :=
  let failedCnt := failedCount cases
  let totalCount := cases.length
  if 2 * failedCnt > totalCount then .Failed
  else if failedCnt > 0 then .PartlyValidated
  else .Validated

/-- Whole-run state effect of `runTests` (src/unnamed/part_001, lines 72-177):
when no case is `PENDING` the function returns before touching the project
(lines 80-84, `onUpdateProject` is never called); otherwise every
non-`PASSED` case is processed and the project is updated with the new case
list and the recomputed aggregate status (line 171). -/
def runTests (proj : ValidationProject) (oracle : Nat → Draws) : ValidationProject :=
  if pendingCount proj.testCases = 0 then proj
  else
    let updatedCases := runPass oracle proj.testCases 0
    { proj with testCases := updatedCases, status := finalStatus updatedCases }

/-- The sequence of per-case status writes `runTests` performs through
`setTestCases` (src/unnamed/part_001, lines 97-98 and 137-145): each processed
index is first set to `RUNNING` and then to its final status; skipped
(`PASSED`) cases produce no write, and the early `pendingCount === 0` return
produces an empty sequence. -/
def runTrace (oracle : Nat → Draws) : List TestCase → Nat → List (Nat × TCStatus)
  | [], _ => []
  | tc :: rest, i =>
    if tc.status = .PASSED then runTrace oracle rest (i + 1)
    else (i, .RUNNING) :: (i, (processCase tc (oracle i)).status) ::
      runTrace oracle rest (i + 1)

/-- Status-write trace of a whole `runTests` call. -/
def runTestsTrace (proj : ValidationProject) (oracle : Nat → Draws) :
    List (Nat × TCStatus) :=
  if pendingCount proj.testCases = 0 then []
  else runTrace oracle proj.testCases 0

/-! ## Step editors (`TestPlanView` in src/components/Layout.tsx,
`ReportView` in src/components/ReportView.tsx) -/

namespace TestPlanView

/-- `addStep` of `TestPlanView` (src/components/Layout.tsx, lines 216-225):
appends a fresh step numbered `steps.length + 1` to the edited case's steps. -/
def addStep (steps : List TestStep) : List TestStep :=
  steps ++ [{ stepNumber := steps.length + 1,
              action := "New action",
              expectedResult := "Expected result" }]

/-- `removeStep` of `TestPlanView` (src/components/Layout.tsx, lines 227-232):
`steps.filter((_, i) => i !== index).map((step, i) => ({...step, stepNumber: i + 1}))`. -/
def removeStep (steps : List TestStep) (index : Nat) : List TestStep :=
  (((steps.enum.filter fun p => p.1 ≠ index).map fun p => p.2).mapIdx
    fun i step => { step with stepNumber := i + 1 })

end TestPlanView

namespace ReportView

/-- `addStep` of the `ReportView` fix modal (src/components/ReportView.tsx,
lines 130-138): appends a fresh step numbered `steps.length + 1`. -/
def addStep (steps : List TestStep) : List TestStep :=
  steps ++ [{ stepNumber := steps.length + 1,
              action := "New step action",
              expectedResult := "Expected result" }]

/-- `removeStep` of the `ReportView` fix modal (src/components/ReportView.tsx,
lines 140-144): filter out index `index`, then renumber `i + 1`. -/
def removeStep (steps : List TestStep) (index : Nat) : List TestStep :=
  (((steps.enum.filter fun p => p.1 ≠ index).map fun p => p.2).mapIdx
    fun i step => { step with stepNumber := i + 1 })

/-- `handleSaveAndRetry` (src/components/ReportView.tsx, lines 146-159): the
case whose id matches the edited copy `selectedTest` is replaced by
`{ ...selectedTest, status: 'PENDING', failedStepNumber: undefined,
failureReason: undefined, screenshotUrl: undefined, logs: [] }`; every other
case is kept as-is, and the project status is set to `'In Progress'`. -/
def handleSaveAndRetry (project : ValidationProject) (selectedTest : TestCase) :
    ValidationProject :=
  let updatedTestCases := project.testCases.map fun tc =>
    if tc.id = selectedTest.id then
      { selectedTest with
          status := .PENDING,
          failedStepNumber := none,
          failureReason := none,
          screenshotUrl := none,
          logs := [] }
    else tc
  { project with testCases := updatedTestCases, status := .InProgress }

end ReportView

/-- Step numbers of a step list are a contiguous ascending sequence starting
at 1, i.e. exactly `1, 2, ..., n`. -/
def contiguousFromOne (steps : List TestStep) : Prop :=
  steps.map (fun s => s.stepNumber) = List.range' 1 steps.length

instance (steps : List TestStep) : Decidable (contiguousFromOne steps) := by
  unfold contiguousFromOne; infer_instance

/-! ## Gateway retry helper and the five operations (src/unnamed/part_000) -/

/-- The `retry` helper (src/unnamed/part_000, lines 8-17).  The underlying
asynchronous call is abstracted as an attempt-indexed oracle `fn` (attempt `k`
yields `fn k`).  The value returned is the final `Except` outcome together
with the number of calls made and the list of back-off delays awaited, in
order.  Structure mirrors the source: try `fn()`; on error, if `retries <= 0`
rethrow, else sleep `delay` and recurse with `retries - 1` and `delay * 1.5`. -/
def retry {ε α : Type} (fn : Nat → Except ε α) :
    Nat → ℚ → Nat → Except ε α × Nat × List ℚ
  | retries, delay, k =>
    match fn k with
    | Except.ok a => (Except.ok a, 1, [])
    | Except.error e =>
      match retries with
      | 0 => (Except.error e, 1, [])
      | r + 1 =>
        let rest := retry fn r (delay * 1.5) (k + 1)
        (rest.1, rest.2.1 + 1, delay :: rest.2.2)

/-- `extractRequirements` (src/unnamed/part_000, lines 60-90): wraps its
single Gemini request in `retry` with the default arguments
`retries = 2`, `delay = 1000`; the request/parse pipeline is abstracted as the
attempt oracle `call`. -/
def extractRequirements {ε α : Type} (call : Nat → Except ε α) :
    Except ε α × Nat × List ℚ :=
  retry call 2 1000 0

/-- `generateTestCases` (src/unnamed/part_000, lines 123-152): wraps its
Gemini request in `retry` with the default arguments. -/
def generateTestCases {ε α : Type} (call : Nat → Except ε α) :
    Except ε α × Nat × List ℚ :=
  retry call 2 1000 0

/-- `analyzeAndFixTestCase` (src/unnamed/part_000, lines 175-210): wraps its
Gemini request in `retry` with the default arguments. -/
def analyzeAndFixTestCase {ε α : Type} (call : Nat → Except ε α) :
    Except ε α × Nat × List ℚ :=
  retry call 2 1000 0

/-- `refineTestCase` (src/unnamed/part_000, lines 233-259): wraps its Gemini
request in `retry` with the default arguments. -/
def refineTestCase {ε α : Type} (call : Nat → Except ε α) :
    Except ε α × Nat × List ℚ :=
  retry call 2 1000 0

/-- `generateTestSuiteCode` (src/unnamed/part_000, lines 262-307): wraps its
Gemini request in `retry` with the default arguments. -/
def generateTestSuiteCode {ε α : Type} (call : Nat → Except ε α) :
    Except ε α × Nat × List ℚ :=
  retry call 2 1000 0

/-! ## Spreadsheet import (`parseExcelRequirements` in src/unnamed/part_000) -/

/-- Does the character list start with `pat`? Helper for the embedding of JS
`String.prototype.includes`. -/
def startsWithChars : List Char → List Char → Bool
  | [], _ => true
  | _ :: _, [] => false
  | a :: as, b :: bs => a = b && startsWithChars as bs

/-- Character-list substring search, scanning left to right. -/
def hasSubChars (pat : List Char) : List Char → Bool
  | [] => startsWithChars pat []
  | c :: cs => startsWithChars pat (c :: cs) || hasSubChars pat cs

/-- JS `s.includes(pat)`: `s` contains `pat` as a contiguous substring. -/
def jsIncludes (s pat : String) : Bool :=
  hasSubChars pat.toList s.toList

/-- JS `String.prototype.toLowerCase` for a single character, restricted to
ASCII (the importer only compares against the ASCII keywords `user`, `tech`,
`high`, `low`). -/
def lowerChar (c : Char) : Char :=
  if 65 ≤ c.toNat ∧ c.toNat ≤ 90 then Char.ofNat (c.toNat + 32) else c

/-- JS `s.toLowerCase()` over the character list. -/
def jsToLower (s : String) : String := String.mk (s.data.map lowerChar)

/-- The ASCII whitespace characters JS `String.prototype.trim` strips. -/
def jsWhitespaceChar (c : Char) : Bool :=
  c == ' ' || c == '\t' || c == '\n' || c == '\r'

/-- JS `s.trim()`: strip whitespace from both ends. -/
def jsTrim (s : String) : String :=
  String.mk (((s.data.dropWhile jsWhitespaceChar).reverse.dropWhile
    jsWhitespaceChar).reverse)

/-- JS `a || b` over spreadsheet cell values.  A cell is modelled as
`Option String` (`none` for a missing column / `undefined`); `undefined` and
the empty string are falsy, any other string is truthy; the final operand of a
`||` chain is returned as-is even when falsy. -/
def jsOr (a b : Option String) : Option String :=
  match a with
  | some s => if s = "" then b else some s
  | none => b

/-- JS `String(x)` applied to a cell value: `undefined` prints as
`"undefined"`. -/
def jsString : Option String → String
  | some s => s
  | none => "undefined"

/-- One imported spreadsheet row (src/unnamed/part_000, lines 327-331): the
cells consulted by `parseExcelRequirements`, namely `row['Description']`,
`row['Requirement']`, `row['desc']`, `row['Type']`, `row['Category']`,
`row['Priority']` and the fallback `Object.values(row)[0]`. -/
structure ExcelRow where
  description : Option String
  requirement : Option String
  desc : Option String
  typeCol : Option String
  category : Option String
  priority : Option String
  firstValue : Option String
deriving DecidableEq, Repr

/-- The per-row mapping of `parseExcelRequirements` (src/unnamed/part_000,
lines 327-347): resolve the description through the `||` alias chain, default
the type and priority columns, then apply the two sequential substring
reassignments for each of type (`user`, `tech`) and priority (`high`, `low`);
`now` models `Date.now()` in the generated identifier. -/
def rowRequirement (now : Nat) (index : Nat) (row : ExcelRow) : Requirement :=
  let description :=
    jsString (jsOr row.description (jsOr row.requirement (jsOr row.desc row.firstValue)))
  let typeRaw := jsString (jsOr row.typeCol (jsOr row.category (some "Functional")))
  let priorityRaw := jsString (jsOr row.priority (some "Medium"))
  let t := RequirementType.FUNCTIONAL
  let t := if jsIncludes (jsToLower typeRaw) "user" then RequirementType.USER else t
  let t := if jsIncludes (jsToLower typeRaw) "tech" then RequirementType.TECHNICAL else t
  let p := Priority.Medium
  let p := if jsIncludes (jsToLower priorityRaw) "high" then Priority.High else p
  let p := if jsIncludes (jsToLower priorityRaw) "low" then Priority.Low else p
  { id := "REQ-IMPORT-" ++ toString now ++ "-" ++ toString index,
    description := description, reqType := t, priority := p }

/-- The requirement list produced by `parseExcelRequirements`
(src/unnamed/part_000, lines 327-347): map every row, then
`.filter(req => req.description && req.description.trim() !== '')` (a string is
truthy exactly when non-empty).  The project-name derivation from the file
name is independent of the rows and not needed here. -/
def parseExcelRequirements (rows : List ExcelRow) (now : Nat) : List Requirement :=
  (rows.enum.map fun pr => rowRequirement now pr.1 pr.2).filter
    fun req => req.description != "" && jsTrim req.description != ""

/-! ## Application controller (src/App.tsx) and the project record store -/

/-- Modelled from the spec: `saveProjectToHistory` of `services/db`, which is
imported by src/App.tsx but whose source file is not in the repository
snapshot.  Per the spec, the Project Record Store keeps "one record per
project keyed by project identifier, holding the full ValidationProject
structure verbatim", and every save is "a full replace of that key's record". -/
def saveProjectToHistory (store : List (String × ValidationProject))
    (p : ValidationProject) : List (String × ValidationProject) :=
  (p.id, p) :: store.filter fun kv => kv.1 != p.id

/-- Record lookup in the modelled Project Record Store. -/
def getRecord (store : List (String × ValidationProject)) (key : String) :
    Option ValidationProject :=
  (store.find? fun kv => kv.1 == key).map fun kv => kv.2

/-- The `App` component's state (src/App.tsx, lines 14-15) together with the
record store it persists into. -/
structure AppState where
  currentView : AppView
  activeProject : Option ValidationProject
  store : List (String × ValidationProject)
deriving Repr

/-- The `Partial<ValidationProject>` argument `ChatInterface.handleFinish`
passes to `onComplete` (src/components/ChatInterface.tsx, lines 72-77): the
fields `handleRequirementsGathered` reads. -/
structure GatheredData where
  name : Option String
  platformVersion : Option String
  requirements : Option (List Requirement)
  chatHistory : Option (List ChatMessage)
deriving Repr

/-- `handleRequirementsGathered` (src/App.tsx, lines 22-36), the success
callback of requirement extraction: build a fresh project with
`status: 'Draft'` and `testCases: []` (`now` models `Date.now()`, `createdAt`
the ISO timestamp), set it active, persist it immediately via
`saveProjectToHistory`, and switch the view to `REVIEW_PLAN`.
`data.name || "Untitled Project"` uses JS string falsiness;
`data.requirements || []` and `data.chatHistory || []` default `undefined`. -/
def handleRequirementsGathered (st : AppState) (now : Nat) (createdAt : String)
    (data : GatheredData) : AppState :=
  let newProject : ValidationProject :=
    { id := "PROJ-" ++ toString now,
      name := jsString (jsOr data.name (some "Untitled Project")),
      platformVersion := jsString (jsOr data.platformVersion (some "1.0.0")),
      status := .Draft,
      createdAt := createdAt,
      requirements := data.requirements.getD [],
      testCases := [],
      chatHistory := data.chatHistory.getD [],
      environmentConfig := none }
  { st with
      activeProject := some newProject,
      store := saveProjectToHistory st.store newProject,
      currentView := .REVIEW_PLAN }

/-! ## Supporting lemmas -/

theorem finalStatus_spec (cases : List TestCase) :
    (failedCount cases = 0 → finalStatus cases = .Validated) ∧
    (1 ≤ failedCount cases ∧ 2 * failedCount cases ≤ cases.length →
      finalStatus cases = .PartlyValidated) ∧
    (cases.length < 2 * failedCount cases → finalStatus cases = .Failed) := by
  simp only [finalStatus]
  refine ⟨fun h => ?_, fun h => ?_, fun h => ?_⟩ <;> split_ifs <;>
    first
    | rfl
    | omega

theorem runTests_of_pending_ne (proj : ValidationProject) (oracle : Nat → Draws)
    (hpend : pendingCount proj.testCases ≠ 0) :
    runTests proj oracle =
      { proj with
          testCases := runPass oracle proj.testCases 0,
          status := finalStatus (runPass oracle proj.testCases 0) } := by
  simp [runTests, hpend]

theorem runPass_getElem?_of_passed (oracle : Nat → Draws) :
    ∀ (cases : List TestCase) (k i : Nat) (tc : TestCase),
      cases[i]? = some tc → tc.status = .PASSED →
      (runPass oracle cases k)[i]? = some tc := by
  intro cases
  induction cases with
  | nil => intro k i tc h _; simp at h
  | cons hd tl ih =>
    intro k i tc h hp
    cases i with
    | zero =>
      simp only [List.getElem?_cons_zero, Option.some.injEq] at h
      subst h
      simp [runPass, hp]
    | succ j =>
      simp only [List.getElem?_cons_succ] at h
      simpa [runPass] using ih (k + 1) j tc h hp

/-! ## Concrete fixtures for witnesses and counterexamples -/

/-- A one-step pending test case. -/
def tcPending1 : TestCase :=
  { id := "TC-1", requirementId := "REQ-1", title := "Login",
    steps := [{ stepNumber := 1, action := "open", expectedResult := "ok" }],
    status := .PENDING, logs := [], screenshotUrl := none,
    failedStepNumber := none, failureReason := none }

/-- A test case already `PASSED`. -/
def tcPassed1 : TestCase := { tcPending1 with id := "TC-2", status := .PASSED }

/-- A test case already `FAILED`, with recorded failure data. -/
def tcFailed1 : TestCase :=
  { tcPending1 with
      id := "TC-3", status := .FAILED, failedStepNumber := some 1,
      failureReason := some "boom", screenshotUrl := some "img", logs := ["l"] }

/-- A pending test case whose step list is empty. -/
def tcEmptySteps : TestCase := { tcPending1 with id := "TC-4", steps := [] }

/-- Draws with every `Math.random()` result 0: the success draw fails the
`> 0.3` threshold, so the case fails. -/
def dZero : Draws :=
  { rSuccess := 0, rFailStep := 0, rReason := 0, rShot := 0, consoleTail := [] }

/-- Draws whose success draw 0.35 clears the `> 0.3` threshold. -/
def dPass : Draws := { dZero with rSuccess := 0.35 }

/-- Oracle that always returns `dZero`. -/
def oracleZero : Nat → Draws := fun _ => dZero

/-- Oracle that always returns `dPass`. -/
def oraclePass : Nat → Draws := fun _ => dPass

/-- A project around a given test case list. -/
def projOf (cases : List TestCase) : ValidationProject :=
  { id := "PROJ-1", name := "Demo", platformVersion := "1.0.0",
    status := .InProgress, createdAt := "2026-01-01", requirements := [],
    testCases := cases, chatHistory := [], environmentConfig := none }

/-! ## Claims -/

/-- C1: for every completed execution pass — a `runTests` call that finds at
least one pending case and therefore reaches the aggregation step — the
recomputed aggregate project status is `Validated` when 0 cases are `FAILED`,
`Partly Validated` when the number of `FAILED` cases is at least 1 and at most
half the total number of cases, and `Failed` when the `FAILED` cases are more
than half the total. -/
theorem aggregate_status_after_run (proj : ValidationProject)
    (oracle : Nat → Draws) (hpend : pendingCount proj.testCases ≠ 0) :
    (failedCount (runTests proj oracle).testCases = 0 →
      (runTests proj oracle).status = .Validated) ∧
    (1 ≤ failedCount (runTests proj oracle).testCases ∧
        2 * failedCount (runTests proj oracle).testCases ≤
          (runTests proj oracle).testCases.length →
      (runTests proj oracle).status = .PartlyValidated) ∧
    ((runTests proj oracle).testCases.length <
        2 * failedCount (runTests proj oracle).testCases →
      (runTests proj oracle).status = .Failed) := by
  rw [runTests_of_pending_ne proj oracle hpend]
  exact finalStatus_spec _

/-- Witness for C1: a run over one pending case that passes ends `Validated`. -/
theorem aggregate_status_after_run_witness :
    pendingCount (projOf [tcPending1]).testCases ≠ 0 ∧
    failedCount (runTests (projOf [tcPending1]) oraclePass).testCases = 0 ∧
    (runTests (projOf [tcPending1]) oraclePass).status = .Validated := by
  have hfc : failedCount (runTests (projOf [tcPending1]) oraclePass).testCases = 0 := by
    norm_num [runTests, pendingCount, projOf, runPass, processCase, tcPending1,
      oraclePass, dPass, dZero, failedCount, finalStatus, firstMatch]
    decide
  exact ⟨by decide, hfc,
    (aggregate_status_after_run (projOf [tcPending1]) oraclePass (by decide)).1 hfc⟩

/-- C4: every test case that is already `PASSED` when a run starts is returned
by `runTests` completely unchanged — the whole record (status, steps, logs,
evidence and failure fields) is equal before and after. -/
theorem run_leaves_passed_cases_unchanged (proj : ValidationProject)
    (oracle : Nat → Draws) (i : Nat) (tc : TestCase)
    (hget : proj.testCases[i]? = some tc) (hp : tc.status = .PASSED) :
    (runTests proj oracle).testCases[i]? = some tc := by
  by_cases h : pendingCount proj.testCases = 0
  · simp [runTests, h, hget]
  · rw [runTests_of_pending_ne proj oracle h]
    exact runPass_getElem?_of_passed oracle proj.testCases 0 i tc hget hp

/-- Witness for C4: in a retry over a passed and a pending case, the passed
case is returned verbatim. -/
theorem run_leaves_passed_cases_unchanged_witness :
    (projOf [tcPassed1, tcPending1]).testCases[0]? = some tcPassed1 ∧
    tcPassed1.status = .PASSED ∧
    (runTests (projOf [tcPassed1, tcPending1]) oracleZero).testCases[0]? =
      some tcPassed1 :=
  ⟨rfl, rfl, run_leaves_passed_cases_unchanged _ oracleZero 0 tcPassed1 rfl rfl⟩

theorem processCase_status_terminal (tc : TestCase) (d : Draws) :
    (processCase tc d).status = .PASSED ∨ (processCase tc d).status = .FAILED := by
  cases hb : (decide (d.rSuccess > (0.3:ℚ))) <;> simp [processCase, hb]

theorem runPass_getElem?_of_not_passed (oracle : Nat → Draws) :
    ∀ (cases : List TestCase) (k i : Nat) (tc : TestCase),
      cases[i]? = some tc → tc.status ≠ .PASSED →
      (runPass oracle cases k)[i]? = some (processCase tc (oracle (k + i))) := by
  intro cases
  induction cases with
  | nil => intro k i tc h _; simp at h
  | cons hd tl ih =>
    intro k i tc h hp
    cases i with
    | zero =>
      simp only [List.getElem?_cons_zero, Option.some.injEq] at h
      subst h
      simp [runPass, hp]
    | succ j =>
      simp only [List.getElem?_cons_succ] at h
      have := ih (k + 1) j tc h hp
      simpa [runPass, Nat.add_assoc, Nat.add_comm 1 j] using this

theorem runTrace_running_mem (oracle : Nat → Draws) :
    ∀ (cases : List TestCase) (k i : Nat) (tc : TestCase),
      cases[i]? = some tc → tc.status ≠ .PASSED →
      (k + i, TCStatus.RUNNING) ∈ runTrace oracle cases k := by
  intro cases
  induction cases with
  | nil => intro k i tc h _; simp at h
  | cons hd tl ih =>
    intro k i tc h hp
    cases i with
    | zero =>
      simp only [List.getElem?_cons_zero, Option.some.injEq] at h
      subst h
      simp [runTrace, hp]
    | succ j =>
      simp only [List.getElem?_cons_succ] at h
      have hmem := ih (k + 1) j tc h hp
      have harith : k + 1 + j = k + (j + 1) := by omega
      rw [harith] at hmem
      by_cases hhd : hd.status = .PASSED <;> simp [runTrace, hhd, hmem]

theorem runTrace_fst_ge (oracle : Nat → Draws) :
    ∀ (cases : List TestCase) (k : Nat) (p : Nat × TCStatus),
      p ∈ runTrace oracle cases k → k ≤ p.1 := by
  intro cases
  induction cases with
  | nil => intro k p h; simp [runTrace] at h
  | cons hd tl ih =>
    intro k p h
    by_cases hhd : hd.status = .PASSED
    · simp only [runTrace, if_pos hhd] at h
      exact Nat.le_of_succ_le (ih (k + 1) p h)
    · simp only [runTrace, if_neg hhd, List.mem_cons] at h
      rcases h with h | h | h
      · simp [h]
      · simp [h]
      · exact Nat.le_of_succ_le (ih (k + 1) p h)

theorem runTrace_fst_pairwise (oracle : Nat → Draws) :
    ∀ (cases : List TestCase) (k : Nat),
      ((runTrace oracle cases k).map Prod.fst).Pairwise (· ≤ ·) := by
  intro cases
  induction cases with
  | nil => intro k; simp [runTrace]
  | cons hd tl ih =>
    intro k
    by_cases hhd : hd.status = .PASSED
    · simpa [runTrace, hhd] using ih (k + 1)
    · simp only [runTrace, if_neg hhd, List.map_cons, List.pairwise_cons]
      refine ⟨?_, ?_, ih (k + 1)⟩
      · intro b hb
        simp only [List.mem_cons, List.mem_map] at hb
        rcases hb with hb | ⟨p, hp, hb⟩
        · omega
        · have := runTrace_fst_ge oracle tl (k + 1) p hp
          omega
      · intro b hb
        simp only [List.mem_map] at hb
        rcases hb with ⟨p, hp, hb⟩
        have := runTrace_fst_ge oracle tl (k + 1) p hp
        omega

/-- C5 counterexample: the claim fails as stated.  In a run over a project
whose only test case is `FAILED` (and so not `PASSED`) there is no pending
case, `runTests` takes its early-return path, the case is never marked
`RUNNING` — the status-write trace is empty — and the project is returned
untouched. -/
theorem run_skips_not_passed_case_when_none_pending :
    (projOf [tcFailed1]).testCases[0]? = some tcFailed1 ∧
    tcFailed1.status ≠ TCStatus.PASSED ∧
    runTestsTrace (projOf [tcFailed1]) oracleZero = [] ∧
    (0, TCStatus.RUNNING) ∉ runTestsTrace (projOf [tcFailed1]) oracleZero ∧
    runTests (projOf [tcFailed1]) oracleZero = projOf [tcFailed1] := by
  refine ⟨rfl, by decide, ?_, ?_, ?_⟩ <;>
    simp [runTestsTrace, runTests, pendingCount, projOf, tcFailed1, tcPending1]

/-- C5 (amended): in every execution run that finds at least one `PENDING`
case, every test case that is not `PASSED` at the start is processed in list
order — it is marked `RUNNING` in the run's status-write trace, whose indices
are non-decreasing, and by the end of the run it carries a final status of
either `PASSED` or `FAILED`.  (A run with no `PENDING` case returns early and
processes nothing; see the counterexample.) -/
theorem run_processes_not_passed (proj : ValidationProject)
    (oracle : Nat → Draws) (hpend : pendingCount proj.testCases ≠ 0) :
    (∀ i tc, proj.testCases[i]? = some tc → tc.status ≠ .PASSED →
      (i, TCStatus.RUNNING) ∈ runTestsTrace proj oracle ∧
      ∃ tcF, (runTests proj oracle).testCases[i]? = some tcF ∧
        (tcF.status = .PASSED ∨ tcF.status = .FAILED)) ∧
    ((runTestsTrace proj oracle).map Prod.fst).Pairwise (· ≤ ·) := by
  constructor
  · intro i tc hget hnp
    constructor
    · have := runTrace_running_mem oracle proj.testCases 0 i tc hget hnp
      simpa [runTestsTrace, hpend] using this
    · refine ⟨processCase tc (oracle i), ?_, processCase_status_terminal tc (oracle i)⟩
      rw [runTests_of_pending_ne proj oracle hpend]
      simpa using runPass_getElem?_of_not_passed oracle proj.testCases 0 i tc hget hnp
  · by_cases h : pendingCount proj.testCases = 0
    · simp [runTestsTrace, h]
    · simpa [runTestsTrace, h] using runTrace_fst_pairwise oracle proj.testCases 0

/-- Witness for C5 (amended): with one `FAILED` and one `PENDING` case, the
`FAILED` case is marked `RUNNING` and ends with a terminal status. -/
theorem run_processes_not_passed_witness :
    pendingCount (projOf [tcFailed1, tcPending1]).testCases ≠ 0 ∧
    (0, TCStatus.RUNNING) ∈ runTestsTrace (projOf [tcFailed1, tcPending1]) oracleZero ∧
    ∃ tcF,
      (runTests (projOf [tcFailed1, tcPending1]) oracleZero).testCases[0]? = some tcF ∧
      (tcF.status = .PASSED ∨ tcF.status = .FAILED) := by
  have h := run_processes_not_passed (projOf [tcFailed1, tcPending1]) oracleZero (by decide)
  have h0 := h.1 0 tcFailed1 rfl (by decide)
  exact ⟨by decide, h0.1, h0.2⟩

theorem failAt_bounds (r : ℚ) (n : Nat) (h0 : 0 ≤ r) (h1 : r < 1) (hn : 1 ≤ n) :
    1 ≤ (Int.floor (r * (n:ℚ))).toNat + 1 ∧ (Int.floor (r * (n:ℚ))).toNat + 1 ≤ n := by
  have hnn : (0:ℚ) ≤ r * n := mul_nonneg h0 (by positivity)
  have hfl0 : 0 ≤ Int.floor (r * (n:ℚ)) := Int.floor_nonneg.mpr hnn
  have hnpos : (0:ℚ) < n := by exact_mod_cast hn
  have hlt : r * (n:ℚ) < n := by
    calc r * (n:ℚ) < 1 * n := mul_lt_mul_of_pos_right h1 hnpos
    _ = n := one_mul _
  have hfln : Int.floor (r * (n:ℚ)) < (n:ℤ) := by
    rw [Int.floor_lt]
    exact_mod_cast hlt
  omega

theorem firstMatch_of_mem : ∀ (steps : List TestStep) (k : Nat),
    k ∈ steps.map (fun s => s.stepNumber) → firstMatch steps k = some k := by
  intro steps
  induction steps with
  | nil => simp
  | cons s rest ih =>
    intro k hk
    simp only [List.map_cons, List.mem_cons] at hk
    by_cases h : s.stepNumber = k
    · simp [firstMatch, h]
    · rcases hk with hk | hk
      · exact absurd hk.symm h
      · simp [firstMatch, h, ih k hk]

/-- C7 counterexample: the claim fails as stated.  A failing threshold draw on
a (reachable) test case with an empty step list produces a `FAILED` case whose
`failedStepNumber` and `failureReason` are both `undefined` — nothing in the
range `1..number of steps` is recorded, and no reason is drawn. -/
theorem failing_sim_records_nothing_on_empty_steps :
    ValidDraws dZero ∧ ¬ (dZero.rSuccess > (0.3:ℚ)) ∧
    (processCase tcEmptySteps dZero).status = .FAILED ∧
    (processCase tcEmptySteps dZero).failedStepNumber = none ∧
    (processCase tcEmptySteps dZero).failureReason = none := by
  refine ⟨by norm_num [ValidDraws, dZero], by norm_num [dZero], ?_, ?_, ?_⟩ <;>
    norm_num [processCase, tcEmptySteps, tcPending1, dZero, firstMatch]

/-- C7 (amended): for every simulated test case with at least one step and
contiguously numbered steps `1..n`, when the outcome draw decides failure the
simulator records a `failedStepNumber` that is the number of one of the case's
steps and lies in `1..n`, and a `failureReason` drawn from the fixed reason
set.  (A case with an empty — or non-contiguously numbered — step list can
record neither; see the counterexample.) -/
theorem failing_sim_records_step_and_reason (tc : TestCase) (d : Draws)
    (hv : ValidDraws d) (hfail : ¬ (d.rSuccess > (0.3:ℚ)))
    (hsteps : contiguousFromOne tc.steps) (hne : 1 ≤ tc.steps.length) :
    ∃ k, (processCase tc d).failedStepNumber = some k ∧
      k ∈ tc.steps.map (fun s => s.stepNumber) ∧
      1 ≤ k ∧ k ≤ tc.steps.length ∧
      ∃ rsn, (processCase tc d).failureReason = some rsn ∧ rsn ∈ reasons := by
  obtain ⟨_, _, hf0, hf1, hr0, hr1, _, _⟩ := hv
  have hb : (decide (d.rSuccess > (0.3:ℚ))) = false := decide_eq_false hfail
  have hkb := failAt_bounds d.rFailStep tc.steps.length hf0 hf1 hne
  have hkmem : (Int.floor (d.rFailStep * (tc.steps.length:ℚ))).toNat + 1 ∈
      tc.steps.map (fun s => s.stepNumber) := by
    rw [hsteps, List.mem_range'_1]
    omega
  have hrb := failAt_bounds d.rReason reasons.length hr0 hr1 (by norm_num [reasons])
  have hridx : (Int.floor (d.rReason * (reasons.length:ℚ))).toNat < reasons.length := by
    omega
  refine ⟨(Int.floor (d.rFailStep * (tc.steps.length:ℚ))).toNat + 1, ?_, hkmem,
    hkb.1, hkb.2, ?_⟩
  · simp only [processCase, hb, Bool.not_false, if_true, Bool.false_eq_true,
      if_false]
    exact firstMatch_of_mem tc.steps _ hkmem
  · refine ⟨reasons.get ⟨(Int.floor (d.rReason * (reasons.length:ℚ))).toNat, hridx⟩,
      ?_, List.get_mem reasons _ hridx⟩
    simp only [processCase, hb, Bool.not_false, if_true, Bool.false_eq_true,
      if_false, firstMatch_of_mem tc.steps _ hkmem]
    simp [List.get?_eq_getElem?, List.getElem?_eq_getElem hridx]

/-- Witness for C7 (amended): a failing draw on a one-step case records step 1
and the first reason of the pool. -/
theorem failing_sim_records_step_and_reason_witness :
    ValidDraws dZero ∧ ¬ (dZero.rSuccess > (0.3:ℚ)) ∧
    contiguousFromOne tcPending1.steps ∧ 1 ≤ tcPending1.steps.length ∧
    ∃ k, (processCase tcPending1 dZero).failedStepNumber = some k ∧
      k ∈ tcPending1.steps.map (fun s => s.stepNumber) ∧
      1 ≤ k ∧ k ≤ tcPending1.steps.length ∧
      ∃ rsn, (processCase tcPending1 dZero).failureReason = some rsn ∧ rsn ∈ reasons :=
  ⟨by norm_num [ValidDraws, dZero], by norm_num [dZero], by decide, by decide,
    failing_sim_records_step_and_reason tcPending1 dZero
      (by norm_num [ValidDraws, dZero]) (by norm_num [dZero]) (by decide) (by decide)⟩

theorem renumber_map_stepNumber (l : List TestStep) :
    ((l.mapIdx fun i step => { step with stepNumber := i + 1 }).map
      fun s => s.stepNumber) = List.range' 1 l.length := by
  rw [List.mapIdx_eq_enum_map, List.map_map]
  have h1 : ((fun s : TestStep => s.stepNumber) ∘
      Function.uncurry fun i step => { step with stepNumber := i + 1 })
      = (fun n => n + 1) ∘ (Prod.fst : Nat × TestStep → Nat) := by
    funext p; cases p; rfl
  rw [h1, ← List.map_map, List.enum_map_fst, List.range'_eq_map_range]
  exact List.map_congr_left fun a _ => Nat.add_comm a 1

theorem removeStep_contiguous (steps : List TestStep) (index : Nat) :
    contiguousFromOne (ReportView.removeStep steps index) := by
  unfold contiguousFromOne ReportView.removeStep
  rw [renumber_map_stepNumber, List.length_mapIdx]

theorem addStep_stepNumbers (steps : List TestStep) (a e : String)
    (h : contiguousFromOne steps) :
    contiguousFromOne (steps ++
      [{ stepNumber := steps.length + 1, action := a, expectedResult := e }]) := by
  unfold contiguousFromOne at h ⊢
  rw [List.map_append, h, List.length_append, List.map_singleton,
    List.length_singleton, List.range'_1_concat]
  simp [Nat.add_comm]

/-- C2 counterexample: the claim fails as stated.  Adding a step (here in the
report's fix modal; the test-plan editor's `addStep` appends the same way) to
a case whose single step is numbered 5 — a state reachable e.g. through an AI
refinement, which installs model-produced step numbers verbatim — yields step
numbers `[5, 2]`, not the contiguous sequence `1, 2`. -/
theorem addStep_not_contiguous_on_misnumbered :
    ¬ contiguousFromOne
      (ReportView.addStep [{ stepNumber := 5, action := "a", expectedResult := "e" }]) ∧
    (ReportView.addStep [{ stepNumber := 5, action := "a", expectedResult := "e" }]).map
      (fun s => s.stepNumber) = [5, 2] := by
  constructor <;> decide

/-- C2 (amended): in both the test-plan editor and the report's fix modal,
removing a step always renumbers the result to the contiguous ascending
sequence `1..n`; adding a step preserves contiguous numbering — if the step
numbers were `1..n` before the edit, they are `1..n+1` after it.  (On a step
list that is already misnumbered, `addStep` does not restore contiguity; see
the counterexample.) -/
theorem step_edits_keep_numbering_contiguous :
    (∀ (steps : List TestStep) (index : Nat),
      contiguousFromOne (TestPlanView.removeStep steps index)) ∧
    (∀ (steps : List TestStep) (index : Nat),
      contiguousFromOne (ReportView.removeStep steps index)) ∧
    (∀ steps : List TestStep, contiguousFromOne steps →
      contiguousFromOne (TestPlanView.addStep steps)) ∧
    (∀ steps : List TestStep, contiguousFromOne steps →
      contiguousFromOne (ReportView.addStep steps)) := by
  refine ⟨fun steps index => ?_, removeStep_contiguous,
    fun steps h => addStep_stepNumbers steps _ _ h,
    fun steps h => addStep_stepNumbers steps _ _ h⟩
  have := removeStep_contiguous steps index
  simpa [TestPlanView.removeStep, ReportView.removeStep] using this

/-- Witness for C2 (amended): both editors' edits on the well-numbered
one-step fixture stay contiguous. -/
theorem step_edits_keep_numbering_contiguous_witness :
    contiguousFromOne tcPending1.steps ∧
    contiguousFromOne (TestPlanView.removeStep tcPending1.steps 0) ∧
    contiguousFromOne (ReportView.removeStep tcPending1.steps 0) ∧
    contiguousFromOne (TestPlanView.addStep tcPending1.steps) ∧
    contiguousFromOne (ReportView.addStep tcPending1.steps) :=
  ⟨by decide,
    step_edits_keep_numbering_contiguous.1 tcPending1.steps 0,
    step_edits_keep_numbering_contiguous.2.1 tcPending1.steps 0,
    step_edits_keep_numbering_contiguous.2.2.1 tcPending1.steps (by decide),
    step_edits_keep_numbering_contiguous.2.2.2 tcPending1.steps (by decide)⟩

/-- C3: saving a manual or AI fix on a `FAILED` case installs the edited copy
(`selectedTest`, carrying the edited steps and title) with status reset to
`PENDING` and `failedStepNumber`, `failureReason`, the screenshot and the logs
cleared, while every test case whose id differs is returned unchanged. -/
theorem save_fix_resets_case_and_preserves_others (project : ValidationProject)
    (selectedTest : TestCase) (_hFail : selectedTest.status = .FAILED) :
    (ReportView.handleSaveAndRetry project selectedTest).testCases.length =
      project.testCases.length ∧
    (∀ (i : Nat) (tc : TestCase), project.testCases[i]? = some tc → tc.id = selectedTest.id →
      (ReportView.handleSaveAndRetry project selectedTest).testCases[i]? =
        some { selectedTest with
                 status := .PENDING, failedStepNumber := none,
                 failureReason := none, screenshotUrl := none, logs := [] }) ∧
    (∀ (i : Nat) (tc : TestCase), project.testCases[i]? = some tc → tc.id ≠ selectedTest.id →
      (ReportView.handleSaveAndRetry project selectedTest).testCases[i]? = some tc) := by
  refine ⟨by simp [ReportView.handleSaveAndRetry], ?_, ?_⟩ <;>
    intro i tc hget hid <;>
    simp [ReportView.handleSaveAndRetry, List.getElem?_map, hget, hid]

/-- Witness for C3: fixing the failed case of a two-case project resets
exactly that case and leaves the passed one verbatim. -/
theorem save_fix_resets_case_and_preserves_others_witness :
    tcFailed1.status = .FAILED ∧
    (ReportView.handleSaveAndRetry (projOf [tcFailed1, tcPassed1])
        tcFailed1).testCases[0]? =
      some { tcFailed1 with
               status := .PENDING, failedStepNumber := none,
               failureReason := none, screenshotUrl := none, logs := [] } ∧
    (ReportView.handleSaveAndRetry (projOf [tcFailed1, tcPassed1])
        tcFailed1).testCases[1]? = some tcPassed1 :=
  ⟨rfl,
   (save_fix_resets_case_and_preserves_others (projOf [tcFailed1, tcPassed1])
      tcFailed1 rfl).2.1 0 tcFailed1 rfl rfl,
   (save_fix_resets_case_and_preserves_others (projOf [tcFailed1, tcPassed1])
      tcFailed1 rfl).2.2 1 tcPassed1 rfl (by decide)⟩

/-- A two-case project carrying a terminal aggregate status. -/
def projTerm : ValidationProject :=
  { projOf [tcFailed1, tcPassed1] with status := .Failed }

/-- C10: saving a fix from the report sets the whole project's aggregate
status to `In Progress`, overwriting the previously computed terminal status
(`Validated`/`Partly Validated`/`Failed`), even though every other test case
is unchanged. -/
theorem save_fix_overwrites_aggregate_status (project : ValidationProject)
    (selectedTest : TestCase)
    (hTerm : project.status = .Validated ∨ project.status = .PartlyValidated ∨
      project.status = .Failed) :
    (ReportView.handleSaveAndRetry project selectedTest).status = .InProgress ∧
    (ReportView.handleSaveAndRetry project selectedTest).status ≠ project.status ∧
    (∀ (i : Nat) (tc : TestCase), project.testCases[i]? = some tc → tc.id ≠ selectedTest.id →
      (ReportView.handleSaveAndRetry project selectedTest).testCases[i]? = some tc) := by
  refine ⟨rfl, ?_, ?_⟩
  · rcases hTerm with h | h | h <;> simp [ReportView.handleSaveAndRetry, h]
  · intro i tc hget hid
    simp [ReportView.handleSaveAndRetry, List.getElem?_map, hget, hid]

/-- Witness for C10: on a project whose aggregate status is the terminal
`Failed`, saving a fix flips the aggregate to `In Progress`. -/
theorem save_fix_overwrites_aggregate_status_witness :
    (projTerm.status = .Validated ∨ projTerm.status = .PartlyValidated ∨
      projTerm.status = .Failed) ∧
    (ReportView.handleSaveAndRetry projTerm tcFailed1).status = .InProgress ∧
    (ReportView.handleSaveAndRetry projTerm tcFailed1).status ≠ projTerm.status :=
  ⟨by decide,
   (save_fix_overwrites_aggregate_status projTerm tcFailed1 (by decide)).1,
   (save_fix_overwrites_aggregate_status projTerm tcFailed1 (by decide)).2.1⟩

/-- The C6 retry contract for the outcome `out` of a Gateway operation run
against attempt oracle `fn`: at most 3 calls in total (1 initial + at most 2
retries); the delays awaited are an initial segment of `[1000, 1000 * 1.5]`
(the base delay multiplied by 1.5 per further attempt); and when every one of
the three possible attempts fails, the final attempt's error is returned —
an `Except.error`, carrying no partial result. -/
def RetryContract {ε α : Type} (fn : Nat → Except ε α)
    (out : Except ε α × Nat × List ℚ) : Prop :=
  out.2.1 ≤ 3 ∧
  out.2.2 = [1000, 1000 * 1.5].take (out.2.1 - 1) ∧
  (∀ e0 e1 e2, fn 0 = .error e0 → fn 1 = .error e1 → fn 2 = .error e2 →
    out = (.error e2, 3, [1000, 1000 * 1.5]))

theorem retry_default_contract {ε α : Type} (fn : Nat → Except ε α) :
    RetryContract fn (retry fn 2 1000 0) := by
  unfold RetryContract
  rcases h0 : fn 0 with e0 | a0
  · rcases h1 : fn 1 with e1 | a1
    · rcases h2 : fn 2 with e2 | a2
      · refine ⟨?_, ?_, ?_⟩ <;> simp [retry, h0, h1, h2]
      · refine ⟨?_, ?_, ?_⟩ <;> simp [retry, h0, h1, h2]
    · refine ⟨?_, ?_, ?_⟩ <;> simp [retry, h0, h1]
  · refine ⟨?_, ?_, ?_⟩ <;> simp [retry, h0]

/-- C6: each of the five Gateway operations retries a failing underlying call
at most 2 additional times, multiplies the delay between attempts by 1.5 per
attempt (base 1000), and, when the final attempt also fails, propagates that
error to the caller with no partial result. -/
theorem gateway_ops_retry_contract {ε α : Type} (fn : Nat → Except ε α) :
    RetryContract fn (extractRequirements fn) ∧
    RetryContract fn (generateTestCases fn) ∧
    RetryContract fn (analyzeAndFixTestCase fn) ∧
    RetryContract fn (refineTestCase fn) ∧
    RetryContract fn (generateTestSuiteCode fn) :=
  ⟨retry_default_contract fn, retry_default_contract fn, retry_default_contract fn,
    retry_default_contract fn, retry_default_contract fn⟩

/-- Attempt oracle every one of whose calls fails. -/
def failCall : Nat → Except String String := fun _ => .error "boom"

/-- Witness for C6: against an always-failing call, `extractRequirements`
makes exactly 3 attempts, waits 1000 then 1500, and surfaces the error. -/
theorem gateway_ops_retry_contract_witness :
    failCall 0 = .error "boom" ∧ failCall 1 = .error "boom" ∧
    failCall 2 = .error "boom" ∧
    extractRequirements failCall = (.error "boom", 3, [1000, 1500]) := by
  have h := (gateway_ops_retry_contract failCall).1.2.2 "boom" "boom" "boom" rfl rfl rfl
  refine ⟨rfl, rfl, rfl, ?_⟩
  rw [h]
  norm_num

/-- A row whose `Priority` cell contains both `high` and `low`. -/
def rowHighLow : ExcelRow :=
  { description := some "Login works", requirement := none, desc := none,
    typeCol := none, category := none, priority := some "highlow",
    firstValue := none }

/-- A row with an upper-case `HIGH` priority cell. -/
def rowHigh : ExcelRow :=
  { description := some "Search works", requirement := none, desc := none,
    typeCol := none, category := none, priority := some "HIGH",
    firstValue := none }

/-- A row whose resolved description is whitespace-only. -/
def rowBlank : ExcelRow :=
  { description := some "   ", requirement := none, desc := none,
    typeCol := none, category := none, priority := some "high",
    firstValue := none }

/-- C8 counterexample: the claim fails as stated.  A row whose `Priority`
value is `"highlow"` does contain the substring `high`, yet the importer
yields priority `Low`, because the source applies the `low` substring check
after the `high` one and lets it overwrite the result. -/
theorem import_priority_high_claim_fails :
    jsIncludes (jsToLower (jsString (jsOr rowHighLow.priority (some "Medium"))))
      "high" = true ∧
    parseExcelRequirements [rowHighLow] 0 =
      [{ id := "REQ-IMPORT-0-0", description := "Login works",
         reqType := .FUNCTIONAL, priority := .Low }] ∧
    (rowRequirement 0 0 rowHighLow).priority ≠ Priority.High := by
  refine ⟨?_, ?_, ?_⟩ <;> decide

/-- C8 (amended): every requirement produced by the importer has a non-empty,
non-whitespace-only resolved description (rows whose resolved description is
empty or whitespace-only are excluded), and a row whose `Priority` value
contains the substring `high` in any letter case — and does not also contain
`low` — yields priority `High`. -/
theorem import_filters_blank_and_maps_priority :
    (∀ (rows : List ExcelRow) (now : Nat) (req : Requirement),
      req ∈ parseExcelRequirements rows now →
      req.description ≠ "" ∧ jsTrim req.description ≠ "") ∧
    (∀ (now index : Nat) (row : ExcelRow),
      jsIncludes (jsToLower (jsString (jsOr row.priority (some "Medium"))))
        "high" = true →
      jsIncludes (jsToLower (jsString (jsOr row.priority (some "Medium"))))
        "low" = false →
      (rowRequirement now index row).priority = Priority.High) := by
  constructor
  · intro rows now req hmem
    unfold parseExcelRequirements at hmem
    rw [List.mem_filter] at hmem
    have hp := hmem.2
    simp only [Bool.and_eq_true, bne_iff_ne, ne_eq] at hp
    exact ⟨hp.1, hp.2⟩
  · intro now index row hhigh hlow
    simp [rowRequirement, hhigh, hlow]

/-- Witness for C8 (amended): an upper-case `HIGH` row yields priority `High`
and survives the filter; a whitespace-only description row is dropped. -/
theorem import_filters_blank_and_maps_priority_witness :
    jsIncludes (jsToLower (jsString (jsOr rowHigh.priority (some "Medium"))))
      "high" = true ∧
    jsIncludes (jsToLower (jsString (jsOr rowHigh.priority (some "Medium"))))
      "low" = false ∧
    (rowRequirement 0 0 rowHigh).priority = Priority.High ∧
    rowRequirement 0 0 rowHigh ∈ parseExcelRequirements [rowHigh] 0 ∧
    (rowRequirement 0 0 rowHigh).description ≠ "" ∧
    parseExcelRequirements [rowBlank] 7 = [] :=
  ⟨by decide, by decide,
   import_filters_blank_and_maps_priority.2 0 0 rowHigh (by decide) (by decide),
   by decide,
   (import_filters_blank_and_maps_priority.1 [rowHigh] 0 _ (by decide)).1,
   by decide⟩

/-- C9: every successful requirement extraction — the chat's `onComplete`
callback `handleRequirementsGathered` — produces a new project whose status is
`Draft` and whose test case list is empty, persists it immediately to the
project record store (the store afterwards maps the new project's id to the
full record), and transitions the view to `REVIEW_PLAN`. -/
theorem extraction_creates_draft_project (st : AppState) (now : Nat)
    (createdAt : String) (data : GatheredData) :
    ∃ p : ValidationProject,
      (handleRequirementsGathered st now createdAt data).activeProject = some p ∧
      p.status = .Draft ∧ p.testCases = [] ∧
      getRecord (handleRequirementsGathered st now createdAt data).store p.id =
        some p ∧
      (handleRequirementsGathered st now createdAt data).currentView =
        .REVIEW_PLAN := by
  refine ⟨_, rfl, rfl, rfl, ?_, rfl⟩
  simp [handleRequirementsGathered, getRecord, saveProjectToHistory]
